import Mathlib

/-!
Verification of the MCP HTTP bridge (xero-mcp-server).

The bridge is a Node/Express HTTP front end that spawns child processes
speaking newline-delimited JSON-RPC over stdio.  This file gives a shallow
embedding of the parts of the bridge that the checked claims are about:

* a model of JavaScript JSON values (`Json`) together with the JS notions of
  truthiness, strict equality, property access, object spread, string
  coercion, and `String.prototype.toLowerCase`;
* a model of `JSON.parse` on a line of text (`jsonParse`);
* the stream-decoding handlers of `sendMCPMessage` (xero) and
  `sendSupabaseMessage` (supabase), as step functions over arriving chunks;
* the initialization handlers `initMCPServer` / `initSupabaseServer`
  (their `onInitData` listeners, their `error` / `exit` listeners and the
  guard on the stored process handle);
* the HTTP route handlers `GET /tools`, `POST /tools/:toolName`,
  `POST /supabase/tools/:toolName` and `POST /mcp`, as pure functions of the
  request and the provider responses;
* the per-provider id counters (`messageId` / `supabaseMessageId`).

Text is modelled as `List Char`; machine integers of JS are modelled as
`Int` (ids are small integers; no arithmetic overflow is relevant here).
`JSON.parse` is modelled for the fragment actually exchanged by the bridge:
objects, arrays, strings with the common escapes, integer numerals, and the
`true` / `false` / `null` literals (fractional or exponent numerals are not
modelled; no claim or concrete input here uses them).
-/

set_option autoImplicit false

/-- A JavaScript JSON value.  Object fields are an association list in key
order (as produced by `JSON.parse`, where a duplicated key keeps its first
position and its last value). -/
inductive Json where
  | null
  | bool (b : Bool)
  | num (n : Int)
  | str (s : List Char)
  | arr (elems : List Json)
  | obj (fields : List (List Char × Json))

/-- JS truthiness of a value (`if (v)`). -/
def Json.truthy : Json → Bool
  | .null => false
  | .bool b => b
  | .num n => n != 0
  | .str s => !s.isEmpty
  | .arr _ => true
  | .obj _ => true

/-- JS strict equality `===` restricted to the values appearing here:
value equality on primitives; two separately produced objects or arrays are
never reference-equal. -/
def jsStrictEq : Json → Json → Bool
  | .null, .null => true
  | .bool a, .bool b => a == b
  | .num a, .num b => a == b
  | .str a, .str b => a == b
  | _, _ => false

/-- First binding of a key in an association list (keys produced by
`jsonParse` are unique). -/
def lookupField : List (List Char × Json) → List Char → Option Json
  | [], _ => none
  | (k', v) :: rest, k => if k' = k then some v else lookupField rest k

/-- JS property read `v.k` on a value that is not `null`/`undefined`:
objects yield the field, anything else yields `undefined` (`none`).
Reads on `null` in the source are always guarded by `?.` or a truthiness
check, so `none` is also the faithful result there. -/
def jsonField (j : Json) (k : List Char) : Option Json :=
  match j with
  | .obj kvs => lookupField kvs k
  | _ => none

/-- Optional-chain read `v?.k1?.k2`. -/
def jsGetPath (j : Json) (k1 k2 : List Char) : Option Json :=
  match jsonField j k1 with
  | some v => jsonField v k2
  | none => none

/-- JS loose test `v == null` (true for `null` and `undefined`). -/
def jsLooseNull : Option Json → Bool
  | none => true
  | some .null => true
  | some _ => false

/-- Insert-or-replace a binding, keeping the original key position
(the semantics both of a duplicate key in `JSON.parse` and of
`\x7b...t, name: v\x7d` object spread for an existing key). -/
def setAssoc : List (List Char × Json) → List Char → Json → List (List Char × Json)
  | [], k, v => [(k, v)]
  | (k', v') :: rest, k, v =>
      if k' = k then (k', v) :: rest else (k', v') :: setAssoc rest k v

/-- JS `\x7b...t, k: v\x7d` for an object `t`; the non-object case does not
arise for the tool descriptors this is applied to and is modelled as a
fresh one-field object. -/
def jsSetField (t : Json) (k : List Char) (v : Json) : Json :=
  match t with
  | .obj kvs => .obj (setAssoc kvs k v)
  | _ => .obj [(k, v)]

/-- ASCII lowering of one character, the effect of
`String.prototype.toLowerCase` on the ASCII provider keys and tool names
routed by the bridge. -/
def lowerChar (c : Char) : Char :=
  if 65 ≤ c.toNat ∧ c.toNat ≤ 90 then Char.ofNat (c.toNat + 32) else c

/-- `s.toLowerCase()` on ASCII text. -/
def jsToLower (s : List Char) : List Char := s.map lowerChar

/-- Decimal digits of a natural number. -/
def natChars (n : Nat) : List Char := Nat.toDigits 10 n

/-- JS string coercion of an integer. -/
def intChars (n : Int) : List Char :=
  if n < 0 then '-' :: natChars n.natAbs else natChars n.natAbs

/-- JS string coercion `String(v)` / template-literal interpolation of the
values this bridge coerces (primitives; arrays join their elements with a
comma, plain objects print as `[object Object]`). -/
def jsCoerceStr : Json → List Char
  | .null => "null".toList
  | .bool true => "true".toList
  | .bool false => "false".toList
  | .num n => intChars n
  | .str s => s
  | .arr _ => "".toList
  | .obj _ => "[object Object]".toList

/-- Coercion of a possibly-`undefined` value (template literals print
`undefined`). -/
def jsCoerceStrOpt : Option Json → List Char
  | some v => jsCoerceStr v
  | none => "undefined".toList

/-- The whitespace characters relevant both to JSON and to
`String.prototype.trim` on the streams here. -/
def isWsChar (c : Char) : Bool := c = ' ' || c = '\t' || c = '\n' || c = '\r'

/-- Skip leading whitespace. -/
def skipWs (s : List Char) : List Char := s.dropWhile isWsChar

/-- JS `s.trim()`. -/
def jsTrim (s : List Char) : List Char :=
  ((s.dropWhile isWsChar).reverse.dropWhile isWsChar).reverse

def nlChar : Char := '\n'

def dotChar : Char := '.'

/-- JS `s.split(sep)` for a one-character separator: the list of segments,
never empty. -/
def splitOnChar (sep : Char) : List Char → List (List Char)
  | [] => [[]]
  | c :: cs =>
    if c = sep then [] :: splitOnChar sep cs
    else
      match splitOnChar sep cs with
      | [] => [[c]]
      | s :: rest => (c :: s) :: rest

/-- The buffer discipline `lines = buf.split('\n'); buf = lines.pop()`
in one step: the complete (newline-terminated) lines of `s` together with
the trailing carry-over. -/
def splitCarry : List Char → List (List Char) × List Char
  | [] => ([], [])
  | c :: cs =>
    match splitCarry cs with
    | (ls, carry) =>
      if c = nlChar then ([] :: ls, carry)
      else
        match ls with
        | [] => ([], c :: carry)
        | l :: rest => ((c :: l) :: rest, carry)

/-- How `splitCarry` of a concatenation combines the two halves: the left
carry merges into the first complete line of the right part, or into the
carry if the right part completes no line. -/
def combineSplit (p q : List (List Char) × List Char) : List (List Char) × List Char :=
  match q.1 with
  | [] => (p.1, p.2 ++ q.2)
  | h :: t => (p.1 ++ (p.2 ++ h) :: t, q.2)

/-- JS `segments.join('.')`. -/
def joinDot : List (List Char) → List Char
  | [] => []
  | [s] => s
  | s :: rest => s ++ dotChar :: joinDot rest

/-- Value of a hexadecimal digit. -/
def hexVal (c : Char) : Option Nat :=
  if c.isDigit then some (c.toNat - 48)
  else if 97 ≤ c.toNat ∧ c.toNat ≤ 102 then some (c.toNat - 87)
  else if 65 ≤ c.toNat ∧ c.toNat ≤ 70 then some (c.toNat - 55)
  else none

/-- One-character JSON string escapes. -/
def escChar (e : Char) : Option Char :=
  if e = '"' || e = '\\' || e = '/' then some e
  else if e = 'n' then some '\n'
  else if e = 't' then some '\t'
  else if e = 'r' then some '\r'
  else if e = 'b' then some (Char.ofNat 8)
  else if e = 'f' then some (Char.ofNat 12)
  else none

/-- Body of a JSON string literal, positioned just after the opening quote;
yields the decoded content and the remainder after the closing quote. -/
def parseStrLit : List Char → Option (List Char × List Char)
  | [] => none
  | '"' :: cs => some ([], cs)
  | '\\' :: 'u' :: h1 :: h2 :: h3 :: h4 :: cs =>
    (match hexVal h1, hexVal h2, hexVal h3, hexVal h4 with
     | some a, some b, some c, some d =>
       match parseStrLit cs with
       | some (tail, rest) =>
           some (Char.ofNat (((a * 16 + b) * 16 + c) * 16 + d) :: tail, rest)
       | none => none
     | _, _, _, _ => none)
  | '\\' :: e :: cs =>
    (match escChar e with
     | some c =>
       match parseStrLit cs with
       | some (tail, rest) => some (c :: tail, rest)
       | none => none
     | none => none)
  | c :: cs =>
    if c.toNat < 32 then none
    else
      match parseStrLit cs with
      | some (tail, rest) => some (c :: tail, rest)
      | none => none

/-- Accumulate decimal digits. -/
def digitsLoop : Nat → List Char → Nat × List Char
  | acc, [] => (acc, [])
  | acc, c :: cs =>
    if c.isDigit then digitsLoop (acc * 10 + (c.toNat - 48)) cs else (acc, c :: cs)

/-- A JSON natural numeral (no leading zeros). -/
def parseNat : List Char → Option (Nat × List Char)
  | [] => none
  | c :: cs =>
    if c = '0' then
      match cs with
      | c2 :: _ => if c2.isDigit then none else some (0, cs)
      | [] => some (0, [])
    else if c.isDigit then some (digitsLoop (c.toNat - 48) cs)
    else none

/-- Reject the unmodelled fractional/exponent numeral forms. -/
def numTail (j : Json) (rest : List Char) : Option (Json × List Char) :=
  match rest with
  | c :: _ => if c = '.' || c = 'e' || c = 'E' then none else some (j, rest)
  | [] => some (j, [])

/-- A JSON integer numeral. -/
def parseNum (s : List Char) : Option (Json × List Char) :=
  match s with
  | '-' :: rest =>
    (match parseNat rest with
     | some (n, rest2) => numTail (Json.num (-(n : Int))) rest2
     | none => none)
  | _ =>
    match parseNat s with
    | some (n, rest2) => numTail (Json.num (n : Int)) rest2
    | none => none

/-- Remainder of `s` after the literal text `p`, if `p` leads `s`. -/
def afterLit : List Char → List Char → Option (List Char)
  | [], s => some s
  | p :: ps, c :: cs => if c = p then afterLit ps cs else none
  | _ :: _, [] => none

mutual

/-- A JSON value (fuel-indexed recursive descent). -/
def parseVal : Nat → List Char → Option (Json × List Char)
  | 0, _ => none
  | fuel + 1, s =>
    match skipWs s with
    | [] => none
    | c :: cs =>
      if c = '\x7b' then
        match skipWs cs with
        | '\x7d' :: rest => some (Json.obj [], rest)
        | cs2 => parsePairs fuel cs2 []
      else if c = '[' then
        match skipWs cs with
        | ']' :: rest => some (Json.arr [], rest)
        | cs2 => parseItems fuel cs2 []
      else if c = '"' then
        match parseStrLit cs with
        | some (content, rest) => some (Json.str content, rest)
        | none => none
      else if c = 't' then
        match afterLit ("rue".toList) cs with
        | some rest => some (Json.bool true, rest)
        | none => none
      else if c = 'f' then
        match afterLit ("alse".toList) cs with
        | some rest => some (Json.bool false, rest)
        | none => none
      else if c = 'n' then
        match afterLit ("ull".toList) cs with
        | some rest => some (Json.null, rest)
        | none => none
      else parseNum (c :: cs)

/-- The members of a JSON object, positioned at the first key; a duplicated
key keeps its first position and its last value, as in `JSON.parse`. -/
def parsePairs : Nat → List Char → List (List Char × Json) → Option (Json × List Char)
  | 0, _, _ => none
  | fuel + 1, s, acc =>
    match skipWs s with
    | '"' :: cs =>
      (match parseStrLit cs with
       | some (key, rest1) =>
         (match skipWs rest1 with
          | ':' :: rest2 =>
            (match parseVal fuel rest2 with
             | some (v, rest3) =>
               (match skipWs rest3 with
                | ',' :: rest4 => parsePairs fuel rest4 (setAssoc acc key v)
                | '\x7d' :: rest4 => some (Json.obj (setAssoc acc key v), rest4)
                | _ => none)
             | none => none)
          | _ => none)
       | none => none)
    | _ => none

/-- The elements of a JSON array, positioned at the first element. -/
def parseItems : Nat → List Char → List Json → Option (Json × List Char)
  | 0, _, _ => none
  | fuel + 1, s, acc =>
    match parseVal fuel s with
    | some (v, rest) =>
      (match skipWs rest with
       | ',' :: rest2 => parseItems fuel rest2 (acc ++ [v])
       | ']' :: rest2 => some (Json.arr (acc ++ [v]), rest2)
       | _ => none)
    | none => none

end

/-- `JSON.parse(s)`: a single JSON value covering, up to whitespace, the
whole text; `none` models the thrown `SyntaxError`. -/
def jsonParse (s : List Char) : Option Json :=
  match parseVal (s.length + 1) s with
  | some (j, rest) => if skipWs rest = [] then some j else none
  | none => none

def kId : List Char := "id".toList

def kResult : List Char := "result".toList

def kError : List Char := "error".toList

def kMethod : List Char := "method".toList

def kParams : List Char := "params".toList

def kName : List Char := "name".toList

def kProvider : List Char := "provider".toList

def kArgs : List Char := "arguments".toList

def kTools : List Char := "tools".toList

def kJsonrpc : List Char := "jsonrpc".toList

def s20 : List Char := "2.0".toList

def kXero : List Char := "xero".toList

def kSupabase : List Char := "supabase".toList

def kAll : List Char := "all".toList

def sToolsCall : List Char := "tools/call".toList

def sToolsList : List Char := "tools/list".toList

def sUnknownProvider : List Char := "Unknown provider: ".toList

def sAllNotSupported : List Char := "provider=all not supported for tools/call".toList

/-- Truthiness of a field of a value (`v.k` is truthy). -/
def truthyField (p : Json) (k : List Char) : Bool :=
  match jsonField p k with
  | some v => v.truthy
  | none => false

/-- The per-line step shared by the supabase stream handlers:
`const line = raw.trim(); if (!line || !(line.startsWith('\x7b') ||
line.startsWith('['))) continue;` then `JSON.parse` with parse failures
skipped.  Returns the decoded frame the line contributes, if any. -/
def frameOfLine (raw : List Char) : Option Json :=
  let line := jsTrim raw
  if line.isEmpty then none
  else if line.head? = some '\x7b' || line.head? = some '[' then jsonParse line
  else none

/-- The id test of `sendSupabaseMessage`:
`parsed.id === expectedId || expectedId == null`.  `expected` is the `id`
of the outbound message, `none` when the message has no `id` field. -/
def idMatchesB (expected : Option Json) (p : Json) : Bool :=
  jsLooseNull expected ||
    (match jsonField p kId, expected with
     | some pid, some v => jsStrictEq pid v
     | _, _ => false)

/-- The frame a single complete line delivers to a waiting supabase call,
if it parses and matches the expected id. -/
def supaLineMatch (expected : Option Json) (raw : List Char) : Option Json :=
  match frameOfLine raw with
  | some p => if p.truthy && idMatchesB expected p then some p else none
  | none => none

/-- First matching frame among a list of complete lines. -/
def supaFirstMatch (expected : Option Json) (lines : List (List Char)) : Option Json :=
  lines.findSome? (supaLineMatch expected)

/-- State of one `sendSupabaseMessage` listener: its private carry-over
buffer and its resolution (`some` once the promise resolved and the
listener was removed). -/
structure SupaCallSt where
  buffer : List Char
  result : Option Json

/-- The `onData` listener of `sendSupabaseMessage` on one `data` chunk:
buffer the chunk, take the complete lines, resolve with the first frame
whose id matches; the (already updated) buffer is kept for the next chunk. -/
def supaCallStep (expected : Option Json) (st : SupaCallSt) (chunk : List Char) : SupaCallSt :=
  match st.result with
  | some _ => st
  | none =>
    match splitCarry (st.buffer ++ chunk) with
    | (lines, buf2) =>
      match supaFirstMatch expected lines with
      | some j => { buffer := buf2, result := some j }
      | none => { buffer := buf2, result := none }

/-- Run one supabase call listener over the chunks arriving on stdout. -/
def supaCallRun (expected : Option Json) (chunks : List (List Char)) : SupaCallSt :=
  chunks.foldl (supaCallStep expected) { buffer := [], result := none }

/-- The carry-over fold over a whole chunk sequence: all complete lines in
emission order, and the final buffer. -/
def feedAll : List Char → List (List Char) → List (List Char) × List Char
  | buf, [] => ([], buf)
  | buf, c :: cs =>
    match splitCarry (buf ++ c) with
    | (ls, b2) =>
      match feedAll b2 cs with
      | (ls2, b3) => (ls ++ ls2, b3)

/-- The complete lines a chunk sequence yields under the supabase buffer
discipline. -/
def emittedLines (chunks : List (List Char)) : List (List Char) :=
  (feedAll [] chunks).1

/-- The frames the supabase stream handler decodes from a chunk sequence. -/
def supaFrames (chunks : List (List Char)) : List Json :=
  (emittedLines chunks).filterMap frameOfLine

/-- State of one `sendMCPMessage` (xero) listener.  `crashed` models the
uncaught exception thrown by `JSON.parse` inside the `data` listener. -/
inductive XeroCallSt where
  | pending
  | resolvedWith (j : Json)
  | crashed
  | rejectedTimeout

def XeroCallSt.isPending : XeroCallSt → Bool
  | .pending => true
  | _ => false

/-- The `onData` listener of `sendMCPMessage` on one `data` chunk:
`const response = data.toString().trim(); if (response) \x7b removeListener;
resolve(JSON.parse(response)); \x7d` — no buffering, no line split, no id
check. -/
def xeroOnData : XeroCallSt → List Char → XeroCallSt
  | .pending, c =>
    (let t := jsTrim c
     if t.isEmpty then .pending
     else
       match jsonParse t with
       | some j => .resolvedWith j
       | none => .crashed)
  | st, _ => st

/-- Run one xero call listener over the chunks arriving on stdout. -/
def xeroCallRun (chunks : List (List Char)) : XeroCallSt :=
  chunks.foldl xeroOnData .pending

/-- Events a pending call can observe. -/
inductive CallEvent where
  | chunk (c : List Char)
  | exitEvt
  | timeout

/-- One event for a pending xero call.  The `error` / `exit` listeners
installed by `initMCPServer` only log, so a process exit leaves every
pending call untouched; only the call's own 10-second timer rejects it. -/
def xeroCallEvStep : XeroCallSt → CallEvent → XeroCallSt
  | st, .chunk c => xeroOnData st c
  | .pending, .exitEvt => .pending
  | .pending, .timeout => .rejectedTimeout
  | st, _ => st

def xeroCallEvRun (events : List CallEvent) : XeroCallSt :=
  events.foldl xeroCallEvStep .pending

/-- Whether one line completes an initialization attempt: the line decodes
to a frame and `parsed && parsed.result` is truthy.  A frame whose only
payload field is `error` does not qualify. -/
def initLineQualifies (raw : List Char) : Bool :=
  let line := jsTrim raw
  if line.isEmpty then false
  else if line.head? = some '\x7b' || line.head? = some '[' then
    match jsonParse line with
    | some p => p.truthy && truthyField p kResult
    | none => false
  else false

/-- The xero `onInitData` listener on one chunk: split the chunk (no
carry-over buffer), trim, drop empties, resolve on the first qualifying
line. -/
def xeroInitChunkQualifies (chunk : List Char) : Bool :=
  ((splitOnChar nlChar chunk).map jsTrim).any initLineQualifies

/-- Events an initialization attempt can observe. -/
inductive InitEvent where
  | chunk (c : List Char)
  | errorEvt
  | exitEvt
  | timeout

/-- Status of an initialization attempt: `resolvedOk` is `resolve(true)`,
`failedTimeout` is the `reject(new Error('Timeout...'))` of the 10-second
timer — the only reject in either init function. -/
inductive InitStatus where
  | running
  | resolvedOk
  | failedTimeout
deriving DecidableEq

/-- `initMCPServer`: data chunks may resolve; the `error` and `exit`
listeners only log; the timer rejects. -/
def xeroInitStep : InitStatus → InitEvent → InitStatus
  | .running, .chunk c => if xeroInitChunkQualifies c then .resolvedOk else .running
  | .running, .errorEvt => .running
  | .running, .exitEvt => .running
  | .running, .timeout => .failedTimeout
  | st, _ => st

def xeroInitRun (events : List InitEvent) : InitStatus :=
  events.foldl xeroInitStep .running

/-- State of a supabase initialization attempt (`initBuffer` plus status). -/
structure SupaInitSt where
  status : InitStatus
  buffer : List Char

/-- `initSupabaseServer`: buffered line decoding on data chunks; the
`error` / `exit` listeners log and null the handle variable but settle no
promise; the timer rejects. -/
def supaInitStep (st : SupaInitSt) (ev : InitEvent) : SupaInitSt :=
  match st.status, ev with
  | .running, .chunk c =>
    (match splitCarry (st.buffer ++ c) with
     | (lines, buf2) =>
       if lines.any initLineQualifies then { status := .resolvedOk, buffer := buf2 }
       else { status := .running, buffer := buf2 })
  | .running, .errorEvt => st
  | .running, .exitEvt => st
  | .running, .timeout => { st with status := .failedTimeout }
  | _, _ => st

def supaInitRun (events : List InitEvent) : SupaInitSt :=
  events.foldl supaInitStep { status := .running, buffer := [] }

/-- A spawned child process handle: a spawn identity and whether the OS
process is still alive. -/
structure Handle where
  spawnId : Nat
  alive : Bool
deriving DecidableEq

/-- The xero process exits: the OS process dies, and the `exit` listener in
`initMCPServer` only logs, so `mcpServerProcess` keeps the dead handle. -/
def xeroExitEvent (st : Option Handle) : Option Handle :=
  st.map (fun p => { p with alive := false })

/-- The supabase process exits: the `exit` listener sets
`supabaseProcess = null`. -/
def supaExitEvent (_ : Option Handle) : Option Handle := none

/-- Head of `initMCPServer`: `if (mcpServerProcess) return Promise.resolve(true)`;
otherwise a fresh process is spawned and stored.  The Bool reports whether a
spawn occurred. -/
def xeroInitSpawn (st : Option Handle) (fresh : Nat) : Option Handle × Bool :=
  match st with
  | some p => (some p, false)
  | none => (some { spawnId := fresh, alive := true }, true)

/-- Head of `initSupabaseServer`: `if (supabaseProcess) return true;`
otherwise spawn and store. -/
def supaInitSpawn (st : Option Handle) (fresh : Nat) : Option Handle × Bool :=
  match st with
  | some p => (some p, false)
  | none => (some { spawnId := fresh, alive := true }, true)

/-- `sendMCPMessage` writes to the stored process whenever the variable is
non-null (`if (!mcpServerProcess) reject(...)`), alive or not. -/
def xeroSendWrites (st : Option Handle) : Bool := st.isSome

/-- The id counters of the two providers. -/
structure Counters where
  messageId : Int
  supabaseMessageId : Int
deriving DecidableEq

/-- The id draw of `POST /tools/:toolName`:
`providerKey === 'supabase' ? supabaseMessageId++ : messageId++`
(the same counters serve `GET /tools` and the init messages). -/
def nextCallId (providerKey : List Char) (st : Counters) : Int × Counters :=
  if providerKey = kSupabase then
    (st.supabaseMessageId, { st with supabaseMessageId := st.supabaseMessageId + 1 })
  else
    (st.messageId, { st with messageId := st.messageId + 1 })

/-- Draw ids for a sequence of routed tool calls, in request order. -/
def drawIds : Counters → List (List Char) → List (List Char × Int) × Counters
  | st, [] => ([], st)
  | st, p :: ps =>
    match nextCallId p st with
    | (i, st2) =>
      match drawIds st2 ps with
      | (out, st3) => ((p, i) :: out, st3)

/-- JS `s.includes(c)` for a one-character needle. -/
def hasChar (c : Char) : List Char → Bool
  | [] => false
  | x :: xs => x = c || hasChar c xs

/-- `req.query.provider || 'xero'` (an absent or empty query value is
falsy). -/
def orXero (q : Option (List Char)) : List Char :=
  match q with
  | some s => if s.isEmpty then kXero else s
  | none => kXero

/-- Truthiness of an optional query-string value. -/
def optTruthy (q : Option (List Char)) : Bool :=
  match q with
  | some s => !s.isEmpty
  | none => false

/-- `providers[k]` is defined: the registry holds exactly `xero` and
`supabase`. -/
def inRegistry (k : List Char) : Bool := k = kXero || k = kSupabase

/-- `resp?.result?.tools || []`, for the responses (always arrays or absent
in the modelled runs) a provider returns to `tools/list`. -/
def respTools (resp : Json) : List Json :=
  match jsGetPath resp kResult kTools with
  | some (Json.arr ts) => ts
  | _ => []

/-- `(\x7b ...t, name: `p.$\x7bt.name\x7d` \x7d)`: the provider-key
namespacing of one tool descriptor in aggregated listings. -/
def namespacedTool (p : List Char) (t : Json) : Json :=
  jsSetField t kName (Json.str (p ++ dotChar :: jsCoerceStrOpt (jsonField t kName)))

/-- Result of `GET /tools` on its happy path: HTTP status, response body,
and which providers were initialized (i.e. could trigger a spawn). -/
structure ToolsResp where
  status : Nat
  body : Json
  inits : List (List Char)

/-- The `GET /tools` handler, as a function of the `provider` query value
and of the two providers' `tools/list` responses.  Follows the source:
lower-cased selector defaulting to `xero`; a branch per provider guarded by
`provider === key || provider === 'all'`; names namespaced only in the
`all` case; the flattened list is returned with status 200.  A selector
matching neither branch selects nothing and still returns 200. -/
def getToolsHandler (q : Option (List Char)) (xeroResp supaResp : Json) : ToolsResp :=
  let provider := jsToLower (orXero q)
  let xeroPart : List (List Json) :=
    if provider = kXero ∨ provider = kAll then
      [(respTools xeroResp).map (fun t => if provider = kAll then namespacedTool kXero t else t)]
    else []
  let supaPart : List (List Json) :=
    if provider = kSupabase ∨ provider = kAll then
      [(respTools supaResp).map (fun t => if provider = kAll then namespacedTool kSupabase t else t)]
    else []
  { status := 200
  , body := Json.obj [(kJsonrpc, Json.str s20),
      (kResult, Json.obj [(kTools, Json.arr (xeroPart ++ supaPart).flatten)])]
  , inits := (if provider = kXero ∨ provider = kAll then [kXero] else []) ++
      (if provider = kSupabase ∨ provider = kAll then [kSupabase] else []) }

/-- `(req.body && req.body.arguments) || \x7b\x7d` in `POST /tools/:toolName`. -/
def bodyArgsMain (body : Json) : Json :=
  if body.truthy then
    match jsonField body kArgs with
    | some v => if v.truthy then v else Json.obj []
    | none => Json.obj []
  else Json.obj []

/-- `req.body.arguments || \x7b\x7d` in `POST /supabase/tools/:toolName`:
reading a property of `null` throws (`Except.error`), any other body yields
the arguments or the empty-object default. -/
def bodyArgsSupabase (body : Json) : Except Unit Json :=
  match body with
  | Json.null => Except.error ()
  | Json.obj kvs =>
    Except.ok
      (match lookupField kvs kArgs with
       | some v => if v.truthy then v else Json.obj []
       | none => Json.obj [])
  | _ => Except.ok (Json.obj [])

/-- The JSON-RPC `tools/call` request both tool endpoints write to the
child. -/
def toolCallRpc (id : Int) (name : List Char) (args : Json) : Json :=
  Json.obj [(kJsonrpc, Json.str s20), (kId, Json.num id), (kMethod, Json.str sToolsCall),
    (kParams, Json.obj [(kName, Json.str name), (kArgs, args)])]

/-- Outcome of the `POST /tools/:toolName` routing: an immediate 400-class
JSON-RPC error (sent before any `init()`/spawn), or a dispatch to a
provider with the resolved tool name and arguments. -/
inductive PostToolOutcome where
  | badRequest (code : Int) (message : List Char)
  | dispatch (providerKey resolvedName : List Char) (args : Json)

/-- The `POST /tools/:toolName` routing: namespace prefix before the first
`.` (lower-cased) takes priority, then the `provider` query value
(lower-cased), then the default `xero`; `all` and unregistered keys get a
400 response before any process interaction. -/
def postToolRoute (raw : List Char) (q : Option (List Char)) (body : Json) : PostToolOutcome :=
  let args := bodyArgsMain body
  let pkName : List Char × List Char :=
    if hasChar dotChar raw then
      match splitOnChar dotChar raw with
      | [] => (kXero, raw)
      | p :: rest => (jsToLower p, joinDot rest)
    else if optTruthy q then (jsToLower (orXero q), raw)
    else (kXero, raw)
  if pkName.1 = kAll then .badRequest (-32602) sAllNotSupported
  else if inRegistry pkName.1 then .dispatch pkName.1 pkName.2 args
  else .badRequest (-32602) (sUnknownProvider ++ pkName.1)

/-- Outcome of the `POST /mcp` routing in the two-provider variant: a
400-class error, the `tools/list` `provider=all` fan-out branch, or a
dispatch of the (possibly name-rewritten) body to one provider. -/
inductive McpOutcome where
  | badRequest (code : Int) (message : List Char)
  | fanout
  | dispatch (providerKey : List Char) (outMsg : Json)

/-- `msg.params.k = v` (the namespace-strip rewrite). -/
def setParamsField (body : Json) (k : List Char) (v : Json) : Json :=
  match jsonField body kParams with
  | some params => jsSetField body kParams (jsSetField params k v)
  | none => jsSetField body kParams (jsSetField (Json.obj []) k v)

/-- The common tail of the `POST /mcp` handler:
`if (!providers[providerKey]) return 400; ... send(msg)`. -/
def mcpFinish (pk : List Char) (outMsg : Json) : McpOutcome :=
  if inRegistry pk then .dispatch pk outMsg
  else .badRequest (-32602) (sUnknownProvider ++ pk)

/-- `else if (req.query.provider) providerKey = String(req.query.provider).toLowerCase()`. -/
def mcpQueryHint (body : Json) (q : Option (List Char)) : List Char × Json :=
  if optTruthy q then (jsToLower (orXero q), body) else (kXero, body)

/-- `else if (msg?.params?.provider) providerKey = String(...).toLowerCase()`. -/
def mcpToolCallHint (body : Json) (q : Option (List Char)) : List Char × Json :=
  match jsGetPath body kParams kProvider with
  | some v => if v.truthy then (jsToLower (jsCoerceStr v), body) else mcpQueryHint body q
  | none => mcpQueryHint body q

/-- The `tools/call` branch of `POST /mcp`: a dotted string name routes by
its lower-cased namespace and is rewritten to the remainder; otherwise the
body-level then query-level provider hints apply. -/
def mcpToolsCall (body : Json) (q : Option (List Char)) : McpOutcome :=
  let nameVal : Json :=
    match jsGetPath body kParams kName with
    | some v => if v.truthy then v else Json.str []
    | none => Json.str []
  let pkBody : List Char × Json :=
    match nameVal with
    | Json.str s =>
      if hasChar dotChar s then
        match splitOnChar dotChar s with
        | [] => (kXero, body)
        | p :: rest => (jsToLower p, setParamsField body kName (Json.str (joinDot rest)))
      else mcpToolCallHint body q
    | _ => mcpToolCallHint body q
  mcpFinish pkBody.1 pkBody.2

/-- The `tools/list` branch of `POST /mcp`: the lower-cased selector from
body, query or default; `all` fans out; anything else maps to `supabase`
or falls back to `xero`, and the body is forwarded unchanged. -/
def mcpToolsList (body : Json) (q : Option (List Char)) : McpOutcome :=
  let wantRaw : List Char :=
    match jsGetPath body kParams kProvider with
    | some v => if v.truthy then jsCoerceStr v else orXero q
    | none => orXero q
  let want := jsToLower wantRaw
  if want = kAll then .fanout
  else if want = kSupabase then .dispatch kSupabase body
  else .dispatch kXero body

/-- The remaining-methods branch of `POST /mcp`: optional query hint, else
default `xero`; the body is forwarded unchanged. -/
def mcpOther (body : Json) (q : Option (List Char)) : McpOutcome :=
  if optTruthy q then mcpFinish (jsToLower (orXero q)) body
  else mcpFinish kXero body

/-- The `POST /mcp` routing of the two-provider variant.  Note that on
every dispatch path the outbound message is the request body (possibly with
`params.name` rewritten): the handler assigns no id of its own. -/
def mcpRoute (body : Json) (q : Option (List Char)) : McpOutcome :=
  match jsonField body kMethod with
  | some (Json.str m) =>
    if m = sToolsCall then mcpToolsCall body q
    else if m = sToolsList then mcpToolsList body q
    else mcpOther body q
  | _ => mcpOther body q

/-- The response body of the `tools/list` `provider=all` fan-out branch of
`POST /mcp`. -/
def mcpFanoutResp (xeroResp supaResp : Json) : Json :=
  Json.obj [(kJsonrpc, Json.str s20),
    (kResult, Json.obj [(kTools, Json.arr
      ((respTools xeroResp).map (namespacedTool kXero) ++
       (respTools supaResp).map (namespacedTool kSupabase)))])]

/-- JS object spread of one object over another: the base fields in order,
values overridden by the overlay where keys repeat, new overlay keys
appended; a non-object overlay contributes nothing. -/
def jsSpread (base over : Json) : Json :=
  match base, over with
  | Json.obj kvs, Json.obj kvs2 => Json.obj (kvs2.foldl (fun acc kv => setAssoc acc kv.1 kv.2) kvs)
  | Json.obj kvs, _ => Json.obj kvs
  | _, _ => base

/-- The outbound message of the single-provider `POST /mcp` handler in
`mcp-server.js`: `\x7b jsonrpc: "2.0", id: messageId++, ...req.body \x7d` —
a body-supplied `id` overrides the freshly drawn counter id. -/
def mcpServerJsMessage (counter : Int) (body : Json) : Json :=
  jsSpread (Json.obj [(kJsonrpc, Json.str s20), (kId, Json.num counter)]) body

/-- The counter a provider key draws from (`supabaseMessageId` for
`supabase`, `messageId` for everything else). -/
def ctrOf (st : Counters) (p : List Char) : Int :=
  if p = kSupabase then st.supabaseMessageId else st.messageId

/-- Example response line with id 1 (`\x7b"id":1,"result":"a"\x7d`). -/
def exLine1 : List Char := "\x7b\"id\":1,\"result\":\"a\"\x7d".toList

/-- Example response line with id 2 (`\x7b"id":2,"result":"b"\x7d`). -/
def exLine2 : List Char := "\x7b\"id\":2,\"result\":\"b\"\x7d".toList

/-- `exLine2` as a newline-terminated chunk. -/
def exChunkA : List Char := exLine2 ++ [nlChar]

/-- `exLine1` as a newline-terminated chunk. -/
def exChunkB : List Char := exLine1 ++ [nlChar]

/-- The decoded frame of `exLine1`. -/
def exFrame1 : Json := Json.obj [(kId, Json.num 1), (kResult, Json.str ("a".toList))]

/-- The decoded frame of `exLine2`. -/
def exFrame2 : Json := Json.obj [(kId, Json.num 2), (kResult, Json.str ("b".toList))]

/-- Example response line with id 3. -/
def exLine3 : List Char := "\x7b\"id\":3,\"result\":\"c\"\x7d".toList

/-- Example response line with id 4. -/
def exLine4 : List Char := "\x7b\"id\":4,\"result\":\"d\"\x7d".toList

/-- `exLine3` as a newline-terminated chunk. -/
def exChunkC : List Char := exLine3 ++ [nlChar]

/-- `exLine4` as a newline-terminated chunk. -/
def exChunkD : List Char := exLine4 ++ [nlChar]

/-- The decoded frame of `exLine3`. -/
def exFrame3 : Json := Json.obj [(kId, Json.num 3), (kResult, Json.str ("c".toList))]

/-- A non-JSON diagnostic line as a newline-terminated chunk, as the xero
child writes between protocol frames. -/
def exLogChunk : List Char := "[XERO MCP] starting".toList ++ [nlChar]

/-- A `tools/list` response of the xero provider carrying one tool. -/
def exXeroResp : Json :=
  Json.obj [(kJsonrpc, Json.str s20), (kResult, Json.obj [(kTools,
    Json.arr [Json.obj [(kName, Json.str ("list-contacts".toList))]])])]

/-- A `tools/list` response of the supabase provider carrying one tool. -/
def exSupaResp : Json :=
  Json.obj [(kJsonrpc, Json.str s20), (kResult, Json.obj [(kTools,
    Json.arr [Json.obj [(kName, Json.str ("list-tables".toList))]])])]

/-- A `tools/call` request body without any `id` field. -/
def exBodyNoId : Json :=
  Json.obj [(kJsonrpc, Json.str s20), (kMethod, Json.str sToolsCall),
    (kParams, Json.obj [(kName, Json.str ("list-contacts".toList))])]

/-- A request body carrying the caller-chosen id 7. -/
def exBodyId7 : Json := Json.obj [(kMethod, Json.str sToolsList), (kId, Json.num 7)]

/-- An initialization response frame carrying an `error` field and no
`result` field. -/
def exErrLine : List Char :=
  "\x7b\"jsonrpc\":\"2.0\",\"id\":1,\"error\":\x7b\"code\":-32600,\"message\":\"boom\"\x7d\x7d".toList

/-- `exErrLine` as a newline-terminated chunk. -/
def exErrChunk : List Char := exErrLine ++ [nlChar]

/-- The provider key `ghost`, not present in the registry. -/
def exGhost : List Char := "ghost".toList

/-- The non-JSON diagnostic line itself (no newline). -/
def exLogLine : List Char := "[XERO MCP] starting".toList

/-- The provider a `POST /mcp` routing outcome targets: the dispatched
provider key, `all` for the fan-out branch, none for a 400 response. -/
def mcpProviderOf : McpOutcome → Option (List Char)
  | .dispatch pk _ => some pk
  | .fanout => some kAll
  | .badRequest _ _ => none

theorem lowerChar_toNat_of_upper (c : Char) (h1 : 65 ≤ c.toNat) (h2 : c.toNat ≤ 90) :
    (lowerChar c).toNat = c.toNat + 32 := by
  unfold lowerChar
  rw [if_pos ⟨h1, h2⟩]
  unfold Char.ofNat
  rw [dif_pos (Or.inl (by omega))]
  rfl

theorem lowerChar_eq_self (c : Char) (h : ¬(65 ≤ c.toNat ∧ c.toNat ≤ 90)) : lowerChar c = c := by
  unfold lowerChar
  rw [if_neg h]

theorem lowerChar_idem (c : Char) : lowerChar (lowerChar c) = lowerChar c := by
  by_cases h : 65 ≤ c.toNat ∧ c.toNat ≤ 90
  · have ht := lowerChar_toNat_of_upper c h.1 h.2
    apply lowerChar_eq_self
    omega
  · rw [lowerChar_eq_self c h]
    exact lowerChar_eq_self c h

theorem jsToLower_idem (s : List Char) : jsToLower (jsToLower s) = jsToLower s := by
  induction s with
  | nil => rfl
  | cons c cs ih =>
    simp only [jsToLower, List.map_cons] at ih ⊢
    rw [lowerChar_idem]
    exact congrArg _ ih

theorem lowerChar_eq_dot_iff (c : Char) : lowerChar c = dotChar ↔ c = dotChar := by
  constructor
  · intro h
    by_cases hc : 65 ≤ c.toNat ∧ c.toNat ≤ 90
    · exfalso
      have ht := lowerChar_toNat_of_upper c hc.1 hc.2
      rw [h] at ht
      have hd : dotChar.toNat = 46 := rfl
      omega
    · rwa [lowerChar_eq_self c hc] at h
  · intro h
    subst h
    rfl

theorem hasChar_lower_dot (s : List Char) :
    hasChar dotChar (jsToLower s) = hasChar dotChar s := by
  induction s with
  | nil => rfl
  | cons c cs ih =>
    show (decide (lowerChar c = dotChar) || hasChar dotChar (jsToLower cs)) = _
    rw [ih]
    by_cases h : c = dotChar
    · subst h
      rfl
    · have h2 : ¬ lowerChar c = dotChar := fun hh => h ((lowerChar_eq_dot_iff c).1 hh)
      simp [hasChar, h, h2]

theorem jsToLower_eq_nil_iff (s : List Char) : jsToLower s = [] ↔ s = [] := by
  cases s <;> simp [jsToLower]

theorem splitOnChar_ne_nil (sep : Char) (s : List Char) : splitOnChar sep s ≠ [] := by
  cases s with
  | nil => simp [splitOnChar]
  | cons c cs =>
    unfold splitOnChar
    split
    · simp
    · split <;> simp

theorem splitOnChar_no_sep (sep : Char) (s : List Char) (h : hasChar sep s = false) :
    splitOnChar sep s = [s] := by
  induction s with
  | nil => rfl
  | cons c cs ih =>
    have hc : ¬ c = sep := by
      intro hh
      simp [hasChar, hh] at h
    have hcs : hasChar sep cs = false := by
      simp [hasChar, hc] at h
      exact h
    simp only [splitOnChar]
    rw [if_neg hc, ih hcs]

theorem splitOnChar_append_sep (sep : Char) (p rest : List Char) (h : hasChar sep p = false) :
    splitOnChar sep (p ++ sep :: rest) = p :: splitOnChar sep rest := by
  induction p with
  | nil =>
    show splitOnChar sep (sep :: rest) = [] :: splitOnChar sep rest
    simp only [splitOnChar, if_true]
  | cons c cs ih =>
    have hc : ¬ c = sep := by
      intro hh
      simp [hasChar, hh] at h
    have hcs : hasChar sep cs = false := by
      simp [hasChar, hc] at h
      exact h
    show splitOnChar sep (c :: (cs ++ sep :: rest)) = (c :: cs) :: splitOnChar sep rest
    simp only [splitOnChar]
    rw [if_neg hc, ih hcs]

theorem splitCarry_no_nl (s : List Char) (h : hasChar nlChar s = false) :
    splitCarry s = ([], s) := by
  induction s with
  | nil => rfl
  | cons c cs ih =>
    have hc : ¬ c = nlChar := by
      intro hh
      simp [hasChar, hh] at h
    have hcs : hasChar nlChar cs = false := by
      simp [hasChar, hc] at h
      exact h
    simp only [splitCarry]
    rw [ih hcs, if_neg hc]

theorem splitCarry_carry_no_nl (s : List Char) :
    hasChar nlChar (splitCarry s).2 = false := by
  induction s with
  | nil => rfl
  | cons c cs ih =>
    simp only [splitCarry]
    rcases hs : splitCarry cs with ⟨ls, carry⟩
    rw [hs] at ih
    by_cases hc : c = nlChar
    · simp only [if_pos hc]
      exact ih
    · simp only [if_neg hc]
      cases ls with
      | nil =>
        simp [hasChar, hc]
        exact ih
      | cons l rest => exact ih

theorem splitCarry_append (a b : List Char) :
    splitCarry (a ++ b) = combineSplit (splitCarry a) (splitCarry b) := by
  induction a with
  | nil =>
    show splitCarry b = combineSplit ([], []) (splitCarry b)
    unfold combineSplit
    rcases hb : splitCarry b with ⟨lb, cb⟩
    cases lb <;> simp
  | cons c cs ih =>
    show splitCarry (c :: (cs ++ b)) = _
    simp only [splitCarry]
    rw [ih]
    rcases hcs : splitCarry cs with ⟨la, ca⟩
    rcases hb : splitCarry b with ⟨lb, cb⟩
    unfold combineSplit
    by_cases hc : c = nlChar
    · simp only [if_pos hc]
      cases lb <;> cases la <;> simp
    · simp only [if_neg hc]
      cases lb <;> cases la <;> simp

theorem feedAll_eq (cs : List (List Char)) (buf : List Char) (h : hasChar nlChar buf = false) :
    feedAll buf cs = splitCarry (buf ++ cs.flatten) := by
  induction cs generalizing buf with
  | nil =>
    show ([], buf) = splitCarry (buf ++ [])
    rw [List.append_nil, splitCarry_no_nl buf h]
  | cons c cs ih =>
    simp only [feedAll]
    rcases hs : splitCarry (buf ++ c) with ⟨ls, b2⟩
    have hb2 : hasChar nlChar b2 = false := by
      have hcn := splitCarry_carry_no_nl (buf ++ c)
      rw [hs] at hcn
      exact hcn
    rw [ih b2 hb2]
    have hflat : (c :: cs).flatten = c ++ cs.flatten := rfl
    rw [hflat, show buf ++ (c ++ cs.flatten) = (buf ++ c) ++ cs.flatten by rw [List.append_assoc]]
    rw [splitCarry_append (buf ++ c) cs.flatten, hs]
    rw [splitCarry_append b2 cs.flatten, splitCarry_no_nl b2 hb2]
    unfold combineSplit
    rcases hf : splitCarry cs.flatten with ⟨lf, cf⟩
    cases lf <;> simp

theorem emittedLines_eq (cs : List (List Char)) :
    emittedLines cs = (splitCarry cs.flatten).1 := by
  unfold emittedLines
  rw [feedAll_eq cs [] rfl]
  rfl

theorem supaFirstMatch_append (e : Option Json) (xs ys : List (List Char)) :
    supaFirstMatch e (xs ++ ys) =
      (match supaFirstMatch e xs with
       | some j => some j
       | none => supaFirstMatch e ys) := by
  induction xs with
  | nil => rfl
  | cons x xs ih =>
    simp only [supaFirstMatch, List.cons_append, List.findSome?_cons] at ih ⊢
    cases supaLineMatch e x <;> simp [ih]

theorem supaCallStep_resolved (e : Option Json) (st : SupaCallSt) (c : List Char) (j : Json)
    (h : st.result = some j) : supaCallStep e st c = st := by
  unfold supaCallStep
  rw [h]

theorem foldl_supaCallStep_resolved (e : Option Json) (cs : List (List Char)) (st : SupaCallSt)
    (j : Json) (h : st.result = some j) : cs.foldl (supaCallStep e) st = st := by
  induction cs with
  | nil => rfl
  | cons c cs ih =>
    show cs.foldl (supaCallStep e) (supaCallStep e st c) = st
    rw [supaCallStep_resolved e st c j h]
    exact ih


theorem foldl_supaCallStep_eq (e : Option Json) (cs : List (List Char)) (buf : List Char)
    (h : hasChar nlChar buf = false) :
    (cs.foldl (supaCallStep e) { buffer := buf, result := none }).result =
      supaFirstMatch e (splitCarry (buf ++ cs.flatten)).1 := by
  induction cs generalizing buf with
  | nil =>
    rw [List.flatten_nil, List.append_nil, splitCarry_no_nl buf h]
    rfl
  | cons c cs ih =>
    have hb2 : hasChar nlChar (splitCarry (buf ++ c)).2 = false := splitCarry_carry_no_nl (buf ++ c)
    have hstep : supaCallStep e { buffer := buf, result := none } c =
        { buffer := (splitCarry (buf ++ c)).2
        , result := supaFirstMatch e (splitCarry (buf ++ c)).1 } := by
      unfold supaCallStep
      rcases hs : splitCarry (buf ++ c) with ⟨ls, b2⟩
      cases hm : supaFirstMatch e ls <;> simp [hm]
    have hassoc : buf ++ (c :: cs).flatten = (buf ++ c) ++ cs.flatten := by
      simp [List.flatten_cons]
    show (cs.foldl (supaCallStep e) (supaCallStep e { buffer := buf, result := none } c)).result = _
    rw [hstep, hassoc, splitCarry_append (buf ++ c) cs.flatten]
    rcases hs : splitCarry (buf ++ c) with ⟨ls, b2⟩
    rw [hs] at hb2
    rcases hf : splitCarry cs.flatten with ⟨lf, cf⟩
    cases hm : supaFirstMatch e ls with
    | some j =>
      rw [foldl_supaCallStep_resolved e cs _ j (by simp [hm])]
      cases lf with
      | nil =>
        unfold combineSplit
        simp [hm]
      | cons l0 lr =>
        unfold combineSplit
        simp only []
        rw [supaFirstMatch_append]
        simp [hm]
    | none =>
      have hpro : ((ls, b2).2 : List Char) = b2 := rfl
      rw [hpro, ih b2 hb2]
      rw [splitCarry_append b2 cs.flatten, splitCarry_no_nl b2 hb2, hf]
      cases lf with
      | nil =>
        simp [combineSplit, hm]
        rfl
      | cons l0 lr =>
        simp only [combineSplit]
        rw [supaFirstMatch_append e ls ((b2 ++ l0) :: lr), hm]
        simp

theorem supaCallRun_eq (e : Option Json) (cs : List (List Char)) :
    (supaCallRun e cs).result = supaFirstMatch e (emittedLines cs) := by
  unfold supaCallRun
  rw [foldl_supaCallStep_eq e cs [] rfl, emittedLines_eq]
  rfl

theorem supaLineMatch_id (e : Option Json) (raw : List Char) (j : Json)
    (h : supaLineMatch e raw = some j) : idMatchesB e j = true := by
  unfold supaLineMatch at h
  cases hf : frameOfLine raw with
  | none =>
    rw [hf] at h
    cases h
  | some p =>
    rw [hf] at h
    dsimp only at h
    by_cases hc : (p.truthy && idMatchesB e p) = true
    · rw [if_pos hc] at h
      cases h
      exact ((Bool.and_eq_true _ _).mp hc).2
    · rw [if_neg hc] at h
      cases h

theorem supaFirstMatch_id (e : Option Json) (lines : List (List Char)) (j : Json)
    (h : supaFirstMatch e lines = some j) : idMatchesB e j = true := by
  induction lines with
  | nil => cases h
  | cons l ls ih =>
    unfold supaFirstMatch at h
    rw [List.findSome?_cons] at h
    cases hl : supaLineMatch e l with
    | some p =>
      rw [hl] at h
      cases h
      exact supaLineMatch_id e l _ hl
    | none =>
      rw [hl] at h
      exact ih h

theorem xeroCallEvStep_timeout_not_pending (st : XeroCallSt) :
    (xeroCallEvStep st .timeout).isPending = false := by
  cases st <;> rfl

theorem xeroCallEvStep_keeps_not_pending (st : XeroCallSt) (ev : CallEvent)
    (h : st.isPending = false) : (xeroCallEvStep st ev).isPending = false := by
  cases st with
  | pending => simp [XeroCallSt.isPending] at h
  | resolvedWith j => cases ev <;> rfl
  | crashed => cases ev <;> rfl
  | rejectedTimeout => cases ev <;> rfl

theorem foldl_xeroCallEvStep_keeps (evs : List CallEvent) (st : XeroCallSt)
    (h : st.isPending = false) : (evs.foldl xeroCallEvStep st).isPending = false := by
  induction evs generalizing st with
  | nil => exact h
  | cons ev evs ih => exact ih _ (xeroCallEvStep_keeps_not_pending st ev h)

theorem foldl_xeroCallEvStep_timeout (evs : List CallEvent) (st : XeroCallSt)
    (h : CallEvent.timeout ∈ evs) : (evs.foldl xeroCallEvStep st).isPending = false := by
  induction evs generalizing st with
  | nil => cases h
  | cons ev evs ih =>
    rcases List.mem_cons.mp h with he | he
    · subst he
      exact foldl_xeroCallEvStep_keeps evs _ (xeroCallEvStep_timeout_not_pending st)
    · exact ih _ he

theorem nextCallId_fst (p : List Char) (st : Counters) : (nextCallId p st).1 = ctrOf st p := by
  unfold nextCallId ctrOf
  by_cases hp : p = kSupabase <;> simp [hp]

theorem nextCallId_ctr_self (p : List Char) (st : Counters) :
    ctrOf (nextCallId p st).2 p = ctrOf st p + 1 := by
  unfold nextCallId ctrOf
  by_cases hp : p = kSupabase <;> simp [hp]

theorem nextCallId_ctr_mono (p q : List Char) (st : Counters) :
    ctrOf st q ≤ ctrOf (nextCallId p st).2 q := by
  unfold nextCallId ctrOf
  by_cases hp : p = kSupabase <;> by_cases hq : q = kSupabase <;> simp [hp, hq]

theorem nextCallId_ctr_same_class (p q : List Char) (st : Counters) (hpq : q = p) :
    ctrOf (nextCallId p st).2 q = ctrOf st p + 1 := by
  rw [hpq]
  exact nextCallId_ctr_self p st

theorem drawIds_cons (p : List Char) (ps : List (List Char)) (st : Counters) :
    (drawIds st (p :: ps)).1 = (p, (nextCallId p st).1) :: (drawIds (nextCallId p st).2 ps).1 := by
  rcases hn : nextCallId p st with ⟨i, st2⟩
  rcases hd : drawIds st2 ps with ⟨out, st3⟩
  simp only [drawIds, hn, hd]

theorem drawIds_ctr_le (ps : List (List Char)) (st : Counters) (x : List Char × Int)
    (hx : x ∈ (drawIds st ps).1) : ctrOf st x.1 ≤ x.2 := by
  induction ps generalizing st with
  | nil => cases hx
  | cons p ps ih =>
    rw [drawIds_cons] at hx
    rcases List.mem_cons.mp hx with he | he
    · subst he
      rw [nextCallId_fst]
    · calc ctrOf st x.1 ≤ ctrOf (nextCallId p st).2 x.1 := nextCallId_ctr_mono p x.1 st
        _ ≤ x.2 := ih (nextCallId p st).2 he

theorem supaInitStep_chunk (buf c : List Char) :
    supaInitStep { status := InitStatus.running, buffer := buf } (InitEvent.chunk c) =
      (if (splitCarry (buf ++ c)).1.any initLineQualifies
       then { status := InitStatus.resolvedOk, buffer := (splitCarry (buf ++ c)).2 }
       else { status := InitStatus.running, buffer := (splitCarry (buf ++ c)).2 }) := by
  unfold supaInitStep
  dsimp only

theorem optTruthy_lower (q : List Char) : optTruthy (some (jsToLower q)) = optTruthy (some q) := by
  cases q <;> rfl

theorem orXero_lower (q : List Char) :
    jsToLower (orXero (some (jsToLower q))) = jsToLower (orXero (some q)) := by
  cases q with
  | nil => rfl
  | cons a l => exact jsToLower_idem (a :: l)

theorem jsToLower_isEmpty (v : List Char) : (jsToLower v).isEmpty = v.isEmpty := by
  cases v <;> rfl

theorem hasChar_append_right (c : Char) (xs ys : List Char) (h : hasChar c ys = true) :
    hasChar c (xs ++ ys) = true := by
  induction xs with
  | nil => exact h
  | cons a as ih => simp [hasChar, ih]

theorem hasChar_self_cons (c : Char) (ys : List Char) : hasChar c (c :: ys) = true := by
  simp [hasChar]

theorem lookupField_setAssoc_eq (kvs : List (List Char × Json)) (k : List Char) (v : Json) :
    lookupField (setAssoc kvs k v) k = some v := by
  induction kvs with
  | nil => simp [setAssoc, lookupField]
  | cons kv rest ih =>
    rcases kv with ⟨k1, v1⟩
    unfold setAssoc
    by_cases h : k1 = k
    · simp [h, lookupField]
    · simp [h, lookupField, ih]

theorem lookupField_setAssoc_ne (kvs : List (List Char × Json)) (k k2 : List Char) (v : Json)
    (h : ¬ k2 = k) :
    lookupField (setAssoc kvs k v) k2 = lookupField kvs k2 := by
  have hsym : ¬ k = k2 := fun hh => h hh.symm
  induction kvs with
  | nil => simp [setAssoc, lookupField, hsym]
  | cons kv rest ih =>
    rcases kv with ⟨k1, v1⟩
    unfold setAssoc
    by_cases h1 : k1 = k
    · subst h1
      simp [lookupField, hsym]
    · rw [if_neg h1]
      show (if k1 = k2 then some v1 else lookupField (setAssoc rest k v) k2) =
        (if k1 = k2 then some v1 else lookupField rest k2)
      by_cases h2 : k1 = k2
      · simp [h2]
      · simp [h2, ih]

theorem jsonField_jsSetField_eq (b : Json) (k : List Char) (x : Json) :
    jsonField (jsSetField b k x) k = some x := by
  cases b <;> simp [jsSetField, jsonField, lookupField, lookupField_setAssoc_eq]

theorem jsonField_jsSetField_ne (b : Json) (k k2 : List Char) (x : Json) (h : ¬ k2 = k) :
    jsonField (jsSetField b k x) k2 = jsonField b k2 := by
  have hsym : ¬ k = k2 := fun hh => h hh.symm
  cases b <;>
    simp [jsSetField, jsonField, lookupField, lookupField_setAssoc_ne _ _ _ _ h, hsym]

theorem mcpProviderOf_mcpFinish (pk : List Char) (b : Json) :
    mcpProviderOf (mcpFinish pk b) = if inRegistry pk then some pk else none := by
  unfold mcpFinish mcpProviderOf
  by_cases h : inRegistry pk = true <;> simp [h]

theorem mcpQueryHint_lower (b : Json) (q : List Char) :
    mcpQueryHint b (some (jsToLower q)) = mcpQueryHint b (some q) := by
  unfold mcpQueryHint
  rw [optTruthy_lower, orXero_lower]

theorem mcpToolCallHint_lower (b : Json) (q : List Char) :
    mcpToolCallHint b (some (jsToLower q)) = mcpToolCallHint b (some q) := by
  unfold mcpToolCallHint
  cases jsGetPath b kParams kProvider with
  | none => exact mcpQueryHint_lower b q
  | some v =>
    by_cases hv : v.truthy = true
    · simp [hv]
    · simp [hv, mcpQueryHint_lower b q]

theorem mcpToolsCall_lower (b : Json) (q : List Char) :
    mcpToolsCall b (some (jsToLower q)) = mcpToolsCall b (some q) := by
  unfold mcpToolsCall
  have hh := mcpToolCallHint_lower b q
  cases hn : jsGetPath b kParams kName with
  | none => simp [hh]
  | some v =>
    by_cases hv : v.truthy = true
    · cases v with
      | str s =>
        by_cases hd : hasChar dotChar s = true
        · simp [hv, hd]
        · simp [hv, hd, hh]
      | null => simp [hv, hh]
      | bool b2 => simp [hv, hh]
      | num n => simp [hv, hh]
      | arr es => simp [hv, hh]
      | obj fs => simp [hv, hh]
    · simp [hv, hh]

theorem mcpToolsList_lower (b : Json) (q : List Char) :
    mcpToolsList b (some (jsToLower q)) = mcpToolsList b (some q) := by
  unfold mcpToolsList
  cases hp : jsGetPath b kParams kProvider with
  | none =>
    dsimp only
    rw [orXero_lower]
  | some v =>
    by_cases hv : v.truthy = true
    · simp [hv]
    · simp [hv, orXero_lower]

theorem mcpOther_lower (b : Json) (q : List Char) :
    mcpOther b (some (jsToLower q)) = mcpOther b (some q) := by
  unfold mcpOther
  rw [optTruthy_lower, orXero_lower]

theorem mcpRoute_query_lower (b : Json) (q : List Char) :
    mcpRoute b (some (jsToLower q)) = mcpRoute b (some q) := by
  unfold mcpRoute
  cases jsonField b kMethod with
  | none => exact mcpOther_lower b q
  | some m =>
    cases m with
    | str s =>
      by_cases h1 : s = sToolsCall
      · simp [h1, mcpToolsCall_lower b q]
      · by_cases h2 : s = sToolsList
        · have hne : (sToolsList = sToolsCall) = False := eq_false (by decide)
          simp [h1, h2, hne, mcpToolsList_lower b q]
        · simp [h1, h2, mcpOther_lower b q]
    | null => exact mcpOther_lower b q
    | bool b2 => exact mcpOther_lower b q
    | num n => exact mcpOther_lower b q
    | arr es => exact mcpOther_lower b q
    | obj fs => exact mcpOther_lower b q

theorem setParamsField_method (b : Json) (k : List Char) (x : Json) :
    jsonField (setParamsField b k x) kMethod = jsonField b kMethod := by
  unfold setParamsField
  cases hp : jsonField b kParams with
  | some params => exact jsonField_jsSetField_ne b kParams kMethod _ (by decide)
  | none => exact jsonField_jsSetField_ne b kParams kMethod _ (by decide)

theorem jsGetPath_jsSetField (b : Json) (k k2 : List Char) (x : Json) :
    jsGetPath (jsSetField b k x) k k2 = jsonField x k2 := by
  unfold jsGetPath
  rw [jsonField_jsSetField_eq]

theorem jsGetPath_setParamsField_other (b : Json) (k k2 : List Char) (x : Json) (h : ¬ k2 = k) :
    jsGetPath (setParamsField b k x) kParams k2 =
      jsonField (match jsonField b kParams with | some p => p | none => Json.obj []) k2 := by
  unfold setParamsField
  cases hp : jsonField b kParams with
  | some params => rw [jsGetPath_jsSetField, jsonField_jsSetField_ne params k k2 x h]
  | none => rw [jsGetPath_jsSetField, jsonField_jsSetField_ne _ k k2 x h]

theorem jsGetPath_setParamsField_self (b : Json) (k : List Char) (x : Json) :
    jsGetPath (setParamsField b k x) kParams k = some x := by
  unfold setParamsField
  cases hp : jsonField b kParams with
  | some params => rw [jsGetPath_jsSetField, jsonField_jsSetField_eq]
  | none => rw [jsGetPath_jsSetField, jsonField_jsSetField_eq]

theorem mcpProviderOf_mcpFinish_eq (pk : List Char) (b1 b2 : Json) :
    mcpProviderOf (mcpFinish pk b1) = mcpProviderOf (mcpFinish pk b2) := by
  rw [mcpProviderOf_mcpFinish, mcpProviderOf_mcpFinish]

theorem mcpProviderOf_mcpOther (b1 b2 : Json) (qp : Option (List Char)) :
    mcpProviderOf (mcpOther b1 qp) = mcpProviderOf (mcpOther b2 qp) := by
  unfold mcpOther
  by_cases h : optTruthy qp = true <;> simp [h, mcpProviderOf_mcpFinish]

theorem mcpQueryHint_fst (b1 b2 : Json) (qp : Option (List Char)) :
    (mcpQueryHint b1 qp).1 = (mcpQueryHint b2 qp).1 := by
  unfold mcpQueryHint
  by_cases h : optTruthy qp = true <;> simp [h]

theorem mcpToolCallHint_fst_lower (b : Json) (v : List Char) (qp : Option (List Char)) :
    (mcpToolCallHint (setParamsField b kProvider (Json.str (jsToLower v))) qp).1 =
      (mcpToolCallHint (setParamsField b kProvider (Json.str v)) qp).1 := by
  unfold mcpToolCallHint
  rw [jsGetPath_setParamsField_self, jsGetPath_setParamsField_self]
  by_cases hv : v.isEmpty = true
  · have hl : (jsToLower v).isEmpty = true := by
      rw [jsToLower_isEmpty]
      exact hv
    simp [Json.truthy, hv, hl]
    exact mcpQueryHint_fst _ _ qp
  · have hv2 : v.isEmpty = false := by
      cases hvv : v.isEmpty
      · rfl
      · exact absurd hvv hv
    have hl : (jsToLower v).isEmpty = false := by
      rw [jsToLower_isEmpty]
      exact hv2
    simp [Json.truthy, hv2, hl, jsCoerceStr, jsToLower_idem]

theorem mcpProviderOf_toolsListTail (w : List Char) (b1 b2 : Json) :
    mcpProviderOf (if w = kAll then McpOutcome.fanout
      else if w = kSupabase then McpOutcome.dispatch kSupabase b1
      else McpOutcome.dispatch kXero b1) =
    mcpProviderOf (if w = kAll then McpOutcome.fanout
      else if w = kSupabase then McpOutcome.dispatch kSupabase b2
      else McpOutcome.dispatch kXero b2) := by
  by_cases h1 : w = kAll
  · simp [h1]
  · have hsa : (kSupabase = kAll) = False := eq_false (by decide)
    by_cases h2 : w = kSupabase <;> simp [h1, h2, hsa, mcpProviderOf]

theorem mcpToolsCall_provider_lower (b : Json) (v : List Char) (qp : Option (List Char)) :
    mcpProviderOf (mcpToolsCall (setParamsField b kProvider (Json.str (jsToLower v))) qp) =
      mcpProviderOf (mcpToolsCall (setParamsField b kProvider (Json.str v)) qp) := by
  unfold mcpToolsCall
  have hn1 : jsGetPath (setParamsField b kProvider (Json.str (jsToLower v))) kParams kName =
      jsGetPath (setParamsField b kProvider (Json.str v)) kParams kName := by
    rw [jsGetPath_setParamsField_other b kProvider kName _ (by decide),
        jsGetPath_setParamsField_other b kProvider kName _ (by decide)]
  rw [hn1]
  have hhint := mcpToolCallHint_fst_lower b v qp
  cases hnv : jsGetPath (setParamsField b kProvider (Json.str v)) kParams kName with
  | none =>
    simp [hasChar, hhint]
    exact mcpProviderOf_mcpFinish_eq _ _ _
  | some nv =>
    cases nv with
    | str s =>
      by_cases hse : s.isEmpty = true
      · have hs0 : s = [] := by
          cases s with
          | nil => rfl
          | cons a as => simp at hse
        subst hs0
        simp [Json.truthy, hasChar, hhint]
        exact mcpProviderOf_mcpFinish_eq _ _ _
      · by_cases hd : hasChar dotChar s = true
        · cases hsp : splitOnChar dotChar s with
          | nil =>
            simp [Json.truthy, hse, hd, hsp]
            exact mcpProviderOf_mcpFinish_eq _ _ _
          | cons p0 rest =>
            simp [Json.truthy, hse, hd, hsp]
            exact mcpProviderOf_mcpFinish_eq _ _ _
        · simp [Json.truthy, hse, hd, hhint]
          exact mcpProviderOf_mcpFinish_eq _ _ _
    | null =>
      simp [Json.truthy, hasChar, hhint]
      exact mcpProviderOf_mcpFinish_eq _ _ _
    | bool b2 =>
      cases b2 with
      | true =>
        simp [Json.truthy, hasChar, hhint]
        exact mcpProviderOf_mcpFinish_eq _ _ _
      | false =>
        simp [Json.truthy, hasChar, hhint]
        exact mcpProviderOf_mcpFinish_eq _ _ _
    | num n =>
      by_cases hn0 : (n != 0) = true
      · simp [Json.truthy, hn0, hasChar, hhint]
        exact mcpProviderOf_mcpFinish_eq _ _ _
      · simp [Json.truthy, hn0, hasChar, hhint]
        exact mcpProviderOf_mcpFinish_eq _ _ _
    | arr es =>
      simp [Json.truthy, hasChar, hhint]
      exact mcpProviderOf_mcpFinish_eq _ _ _
    | obj fs =>
      simp [Json.truthy, hasChar, hhint]
      exact mcpProviderOf_mcpFinish_eq _ _ _

theorem mcpToolsList_provider_lower (b : Json) (v : List Char) (qp : Option (List Char)) :
    mcpProviderOf (mcpToolsList (setParamsField b kProvider (Json.str (jsToLower v))) qp) =
      mcpProviderOf (mcpToolsList (setParamsField b kProvider (Json.str v)) qp) := by
  unfold mcpToolsList
  rw [jsGetPath_setParamsField_self, jsGetPath_setParamsField_self]
  by_cases hse : v.isEmpty = true
  · have hl : (jsToLower v).isEmpty = true := by
      rw [jsToLower_isEmpty]
      exact hse
    simp only [Json.truthy, hse, hl, Bool.not_true, Bool.false_eq_true, if_false]
    exact mcpProviderOf_toolsListTail _ _ _
  · have hv2 : v.isEmpty = false := by
      cases hvv : v.isEmpty
      · rfl
      · exact absurd hvv hse
    have hl : (jsToLower v).isEmpty = false := by
      rw [jsToLower_isEmpty]
      exact hv2
    simp only [Json.truthy, hv2, hl, Bool.not_false, if_true, jsCoerceStr, jsToLower_idem]
    exact mcpProviderOf_toolsListTail _ _ _

theorem mcpRoute_body_provider_lower (b : Json) (v : List Char) (qp : Option (List Char)) :
    mcpProviderOf (mcpRoute (setParamsField b kProvider (Json.str (jsToLower v))) qp) =
      mcpProviderOf (mcpRoute (setParamsField b kProvider (Json.str v)) qp) := by
  unfold mcpRoute
  rw [setParamsField_method, setParamsField_method]
  cases jsonField b kMethod with
  | none => exact mcpProviderOf_mcpOther _ _ qp
  | some m =>
    cases m with
    | str s =>
      by_cases h1 : s = sToolsCall
      · simp only [h1, if_pos rfl]
        exact mcpToolsCall_provider_lower b v qp
      · by_cases h2 : s = sToolsList
        · have hne : (sToolsList = sToolsCall) = False := eq_false (by decide)
          simp only [h1, h2, hne, if_false, if_pos rfl]
          exact mcpToolsList_provider_lower b v qp
        · simp only [if_neg h1, if_neg h2]
          exact mcpProviderOf_mcpOther _ _ qp
    | null => exact mcpProviderOf_mcpOther _ _ qp
    | bool b2 => exact mcpProviderOf_mcpOther _ _ qp
    | num n => exact mcpProviderOf_mcpOther _ _ qp
    | arr es => exact mcpProviderOf_mcpOther _ _ qp
    | obj fs => exact mcpProviderOf_mcpOther _ _ qp

theorem postToolRoute_query_lower (raw q : List Char) (body : Json) :
    postToolRoute raw (some (jsToLower q)) body = postToolRoute raw (some q) body := by
  unfold postToolRoute
  rw [optTruthy_lower, orXero_lower]

theorem postToolRoute_prefix_lower (p rest : List Char) (qp : Option (List Char)) (body : Json)
    (hp : hasChar dotChar p = false) :
    postToolRoute (jsToLower p ++ dotChar :: rest) qp body =
      postToolRoute (p ++ dotChar :: rest) qp body := by
  have hp2 : hasChar dotChar (jsToLower p) = false := by
    rw [hasChar_lower_dot]
    exact hp
  unfold postToolRoute
  rw [hasChar_append_right dotChar (jsToLower p) (dotChar :: rest) (hasChar_self_cons dotChar rest),
    hasChar_append_right dotChar p (dotChar :: rest) (hasChar_self_cons dotChar rest)]
  rw [splitOnChar_append_sep dotChar p rest hp,
    splitOnChar_append_sep dotChar (jsToLower p) rest hp2]
  simp only [if_true, jsToLower_idem]

theorem getToolsHandler_query_lower (q : List Char) (xr sr : Json) :
    getToolsHandler (some (jsToLower q)) xr sr = getToolsHandler (some q) xr sr := by
  unfold getToolsHandler
  rw [orXero_lower]

/-- C1 counterexample: a caller that sent the request with id 1 through
`sendMCPMessage` (xero) is resolved with the frame whose id is 2, because
the xero `onData` listener resolves with the parse of the first non-empty
chunk without any id check — even though the id-1 response frame is present
later in the same well-formed stream (third conjunct). -/
theorem c1_xero_resolves_wrong_id :
    xeroCallRun [exChunkA, exChunkB] = XeroCallSt.resolvedWith exFrame2 ∧
    idMatchesB (some (Json.num 1)) exFrame2 = false ∧
    supaFrames [exChunkA, exChunkB] = [exFrame2, exFrame1] :=
  ⟨rfl, rfl, rfl⟩

/-- C1 (amended): for the supabase provider, `sendSupabaseMessage`
resolves each call with the first decoded frame of the stream whose `id`
strictly equals the call's own id — for any chunk arrival pattern and any
response order — and any frame it resolves with matches the expected id;
frames without an id or with another id are never delivered.  For the xero
provider this fails (see the counterexample). -/
theorem c1_supabase_id_correlation (v : Json) (chunks : List (List Char)) :
    (supaCallRun (some v) chunks).result =
      supaFirstMatch (some v) (emittedLines chunks) ∧
    (∀ j, (supaCallRun (some v) chunks).result = some j →
      idMatchesB (some v) j = true) := by
  refine ⟨supaCallRun_eq (some v) chunks, ?_⟩
  intro j hj
  rw [supaCallRun_eq (some v) chunks] at hj
  exact supaFirstMatch_id (some v) (emittedLines chunks) j hj

/-- C1 witness: with responses arriving out of order (id 2 first), the
supabase caller awaiting id 1 resolves with the id-1 frame. -/
theorem c1_supabase_id_correlation_witness :
    (supaCallRun (some (Json.num 1)) [exChunkA, exChunkB]).result = some exFrame1 ∧
    idMatchesB (some (Json.num 1)) exFrame1 = true := by
  have h := c1_supabase_id_correlation (Json.num 1) [exChunkA, exChunkB]
  refine ⟨?_, h.2 exFrame1 ?_⟩
  · rw [h.1]
    rfl
  · rw [h.1]
    rfl

/-- C2 counterexample: the `POST /mcp` handler of the two-provider variant
dispatches the request body verbatim, so a body without an `id` reaches the
child with no id at all; and the `mcp-server.js` `POST /mcp` handler lets a
body-supplied id override the counter, so two requests carrying body id 7
both go out with id 7 while the first may still be in flight. -/
theorem c2_mcp_forwards_body_id :
    mcpRoute exBodyNoId none = McpOutcome.dispatch kXero exBodyNoId ∧
    jsonField exBodyNoId kId = none ∧
    jsonField (mcpServerJsMessage 5 exBodyId7) kId = some (Json.num 7) ∧
    jsonField (mcpServerJsMessage 6 exBodyId7) kId = some (Json.num 7) :=
  ⟨rfl, rfl, rfl, rfl⟩

/-- C2 (amended): the ids the `/tools` and `/tools/:toolName` handlers draw
from the per-provider counters strictly increase within each provider over
any sequence of routed calls, so no id is ever reused there; the `/mcp`
handlers are the exception recorded in the counterexample. -/
theorem c2_handler_ids_monotone (st : Counters) (ps : List (List Char)) :
    ((drawIds st ps).1).Pairwise (fun a b => a.1 = b.1 → a.2 < b.2) := by
  induction ps generalizing st with
  | nil => simp [drawIds]
  | cons p ps ih =>
    rw [drawIds_cons]
    refine List.Pairwise.cons ?_ (ih (nextCallId p st).2)
    intro y hy hxy
    have hyp : y.1 = p := hxy.symm
    show (p, (nextCallId p st).1).2 < y.2
    have h3 : (p, (nextCallId p st).1).2 = ctrOf st p := nextCallId_fst p st
    have h1 : ctrOf (nextCallId p st).2 y.1 ≤ y.2 := drawIds_ctr_le ps (nextCallId p st).2 y hy
    have h2 : ctrOf (nextCallId p st).2 y.1 = ctrOf st p + 1 := by
      rw [hyp]
      exact nextCallId_ctr_self p st
    omega

/-- C2 witness: a concrete xero, supabase, xero call sequence draws
pairwise-increasing ids per provider. -/
theorem c2_handler_ids_monotone_witness :
    ((drawIds { messageId := 1, supabaseMessageId := 1 } [kXero, kSupabase, kXero]).1).Pairwise
      (fun a b => a.1 = b.1 → a.2 < b.2) :=
  c2_handler_ids_monotone { messageId := 1, supabaseMessageId := 1 } [kXero, kSupabase, kXero]

/-- C3 counterexample: the xero `onData` listener in `sendMCPMessage` is
not chunk-boundary invariant: the same two-line byte stream delivered as
one chunk makes `JSON.parse` throw (no frame is ever emitted), while
delivered line-by-line it resolves with the first frame. -/
theorem c3_xero_chunking_dependent :
    ([exChunkC ++ exChunkD]).flatten = ([exChunkC, exChunkD]).flatten ∧
    xeroCallRun [exChunkC ++ exChunkD] = XeroCallSt.crashed ∧
    xeroCallRun [exChunkC, exChunkD] = XeroCallSt.resolvedWith exFrame3 :=
  ⟨rfl, rfl, rfl⟩

/-- C3 (amended): the supabase stream handlers are chunk-boundary
invariant — any two chunkings of the same bytes decode the same frame
sequence — and a non-JSON log line contributes no frame and leaves the
frames of all other lines unchanged.  The xero handler is the exception
recorded in the counterexample. -/
theorem c3_supabase_chunk_invariance (cs1 cs2 : List (List Char))
    (h : cs1.flatten = cs2.flatten)
    (l1 l2 : List (List Char)) (raw : List Char) (hraw : frameOfLine raw = none) :
    supaFrames cs1 = supaFrames cs2 ∧
    (l1 ++ raw :: l2).filterMap frameOfLine = (l1 ++ l2).filterMap frameOfLine := by
  constructor
  · unfold supaFrames
    rw [emittedLines_eq, emittedLines_eq, h]
  · simp [List.filterMap_append, List.filterMap_cons, hraw]

/-- C3 witness: one chunk versus two chunks of the same bytes decode the
same frames, and an interleaved log line drops out of the decoded
sequence. -/
theorem c3_supabase_chunk_invariance_witness :
    supaFrames [exChunkC ++ exChunkD] = supaFrames [exChunkC, exChunkD] ∧
    ([exLine3] ++ exLogLine :: [exLine4]).filterMap frameOfLine =
      ([exLine3] ++ [exLine4]).filterMap frameOfLine :=
  c3_supabase_chunk_invariance [exChunkC ++ exChunkD] [exChunkC, exChunkD] rfl
    [exLine3] [exLine4] exLogLine rfl

/-- C5 counterexample: after the xero child exits, the stored handle is
kept (the `exit` listener only logs), the next `initMCPServer` call returns
immediately without spawning, and `sendMCPMessage` still writes to the
terminated process. -/
theorem c5_xero_no_respawn_after_exit :
    xeroInitSpawn (xeroExitEvent (some { spawnId := 0, alive := true })) 1 =
      (some { spawnId := 0, alive := false }, false) ∧
    xeroSendWrites (xeroExitEvent (some { spawnId := 0, alive := true })) = true :=
  ⟨rfl, rfl⟩

/-- C5 (amended): for the supabase provider the `exit` listener nulls the
stored handle, so from any prior state the next `initSupabaseServer` call
spawns a fresh, live process.  The xero provider is the exception recorded
in the counterexample. -/
theorem c5_supabase_respawn_after_exit (st : Option Handle) (fresh : Nat) :
    supaInitSpawn (supaExitEvent st) fresh =
      (some { spawnId := fresh, alive := true }, true) :=
  rfl

/-- C6 counterexample: when the xero process exits while a call is
pending, the pending call stays pending (the `exit` listener only logs);
it is settled only later by its own 10-second timer rejection. -/
theorem c6_exit_leaves_pending :
    xeroCallEvRun [CallEvent.exitEvt] = XeroCallSt.pending ∧
    xeroCallEvRun [CallEvent.exitEvt, CallEvent.timeout] = XeroCallSt.rejectedTimeout :=
  ⟨rfl, rfl⟩

/-- C6 (amended): a pending call is never rejected at the moment of a
spawn failure or process exit; instead every event sequence containing the
call's own 10-second timeout leaves the call settled (resolved, rejected by
that timer, or crashed) — it does not hang forever. -/
theorem c6_call_bounded_by_own_timeout (events : List CallEvent)
    (h : CallEvent.timeout ∈ events) :
    (xeroCallEvRun events).isPending = false := by
  unfold xeroCallEvRun
  exact foldl_xeroCallEvStep_timeout events XeroCallSt.pending h

/-- C6 witness: exit followed by the timer leaves the call settled. -/
theorem c6_call_bounded_by_own_timeout_witness :
    (xeroCallEvRun [CallEvent.exitEvt, CallEvent.timeout]).isPending = false :=
  c6_call_bounded_by_own_timeout [CallEvent.exitEvt, CallEvent.timeout] (by simp)

/-- C4 counterexample: `GET /tools?provider=ghost` with no `ghost`
provider registered selects neither provider branch and responds HTTP 200
with an empty tools list — no 400-class error, no error message, and no
provider initialization — contradicting the claim for this route. -/
theorem c4_get_tools_unknown_provider_ok :
    getToolsHandler (some exGhost) exXeroResp exSupaResp =
      { status := 200
      , body := Json.obj [(kJsonrpc, Json.str s20),
          (kResult, Json.obj [(kTools, Json.arr [])])]
      , inits := [] } :=
  rfl

/-- C4 (amended): `POST /tools/:toolName` with an explicit unregistered
provider key does respond with a 400-class JSON-RPC error whose message
names the unknown (lower-cased) provider, before any init or spawn; but
`GET /tools` with an unknown provider silently returns 200 with an empty
list (see the counterexample). -/
theorem c4_post_tool_unknown_provider (raw q : List Char) (body : Json)
    (hdot : hasChar dotChar raw = false)
    (hq : q ≠ [])
    (hreg : inRegistry (jsToLower q) = false)
    (hall : ¬ jsToLower q = kAll) :
    postToolRoute raw (some q) body =
      PostToolOutcome.badRequest (-32602) (sUnknownProvider ++ jsToLower q) := by
  have hne : optTruthy (some q) = true := by
    unfold optTruthy
    cases q with
    | nil => exact absurd rfl hq
    | cons a as => rfl
  have hor : orXero (some q) = q := by
    unfold orXero
    cases q with
    | nil => exact absurd rfl hq
    | cons a as => rfl
  unfold postToolRoute
  rw [hdot]
  simp only [Bool.false_eq_true, if_false, hne, if_true, hor]
  rw [if_neg hall, if_neg ?_]
  rw [hreg]
  simp

/-- C4 witness: `POST /tools/unknown-tool?provider=ghost` yields the 400
response `Unknown provider: ghost`. -/
theorem c4_post_tool_unknown_provider_witness :
    postToolRoute ("unknown-tool".toList) (some exGhost) (Json.obj []) =
      PostToolOutcome.badRequest (-32602) (sUnknownProvider ++ jsToLower exGhost) :=
  c4_post_tool_unknown_provider ("unknown-tool".toList) exGhost (Json.obj [])
    rfl (by decide) rfl (by decide)

/-- C8 counterexample: a decoded initialization frame carrying an `error`
field and no `result` field (first conjunct shows the decoding) leaves both
providers' initialization attempts running — neither resolves nor fails at
that point; the attempt fails only when the 10-second timer fires (last
conjunct). -/
theorem c8_error_frame_not_failing_init :
    jsonParse exErrLine = some (Json.obj [(kJsonrpc, Json.str s20), (kId, Json.num 1),
      (kError, Json.obj [(("code".toList), Json.num (-32600)),
        (("message".toList), Json.str ("boom".toList))])]) ∧
    xeroInitRun [InitEvent.chunk exErrChunk] = InitStatus.running ∧
    (supaInitRun [InitEvent.chunk exErrChunk]).status = InitStatus.running ∧
    xeroInitRun [InitEvent.chunk exErrChunk, InitEvent.timeout] = InitStatus.failedTimeout :=
  ⟨rfl, rfl, rfl, rfl⟩

/-- C8 (amended): during initialization, any chunk none of whose lines
carries a truthy `result` field — in particular a frame with an `error`
field in place of `result` — is ignored: both init listeners stay running
(the supabase one only advances its buffer), and only the timeout event
moves an attempt to its failed state. -/
theorem c8_init_error_frame_ignored (c buf : List Char)
    (hx : xeroInitChunkQualifies c = false)
    (hs : ((splitCarry (buf ++ c)).1).any initLineQualifies = false) :
    xeroInitStep InitStatus.running (InitEvent.chunk c) = InitStatus.running ∧
    xeroInitStep InitStatus.running InitEvent.timeout = InitStatus.failedTimeout ∧
    supaInitStep { status := InitStatus.running, buffer := buf } (InitEvent.chunk c) =
      { status := InitStatus.running, buffer := (splitCarry (buf ++ c)).2 } ∧
    supaInitStep { status := InitStatus.running, buffer := buf } InitEvent.timeout =
      { status := InitStatus.failedTimeout, buffer := buf } := by
  refine ⟨?_, rfl, ?_, rfl⟩
  · show (if xeroInitChunkQualifies c = true then InitStatus.resolvedOk
      else InitStatus.running) = InitStatus.running
    rw [hx]
    simp
  · rw [supaInitStep_chunk buf c]
    rw [if_neg ?_]
    rw [hs]
    simp

/-- C8 witness: the concrete error frame chunk satisfies both hypotheses
and leaves both machines running. -/
theorem c8_init_error_frame_ignored_witness :
    xeroInitStep InitStatus.running (InitEvent.chunk exErrChunk) = InitStatus.running ∧
    xeroInitStep InitStatus.running InitEvent.timeout = InitStatus.failedTimeout ∧
    supaInitStep { status := InitStatus.running, buffer := [] } (InitEvent.chunk exErrChunk) =
      { status := InitStatus.running, buffer := (splitCarry ([] ++ exErrChunk)).2 } ∧
    supaInitStep { status := InitStatus.running, buffer := [] } InitEvent.timeout =
      { status := InitStatus.failedTimeout, buffer := [] } :=
  c8_init_error_frame_ignored exErrChunk [] rfl rfl

/-- C9: when the request body is an object without an `arguments` field —
which is what the `express.json()` middleware supplies (`\x7b\x7d`) when
the request has no body at all — both `POST /tools/:toolName` and
`POST /supabase/tools/:toolName` substitute the empty object, and the
JSON-RPC request written to the child carries
`params = \x7b name, arguments: \x7b\x7d \x7d`. -/
theorem c9_missing_arguments_defaults_empty (kvs : List (List Char × Json)) (id : Int)
    (name : List Char) (hargs : lookupField kvs kArgs = none) :
    bodyArgsMain (Json.obj kvs) = Json.obj [] ∧
    bodyArgsSupabase (Json.obj kvs) = Except.ok (Json.obj []) ∧
    jsonField (toolCallRpc id name (bodyArgsMain (Json.obj kvs))) kParams =
      some (Json.obj [(kName, Json.str name), (kArgs, Json.obj [])]) := by
  have h1 : bodyArgsMain (Json.obj kvs) = Json.obj [] := by
    unfold bodyArgsMain
    simp [Json.truthy, jsonField, hargs]
  refine ⟨h1, ?_, ?_⟩
  · show Except.ok (match lookupField kvs kArgs with
      | some v => if v.truthy = true then v else Json.obj []
      | none => Json.obj []) = Except.ok (Json.obj [])
    rw [hargs]
  · rw [h1]
    rfl

/-- C9 witness: a bodyless request (normalized to the empty object) yields
`arguments: \x7b\x7d` on both endpoints and in the outbound request. -/
theorem c9_missing_arguments_defaults_empty_witness :
    bodyArgsMain (Json.obj []) = Json.obj [] ∧
    bodyArgsSupabase (Json.obj []) = Except.ok (Json.obj []) ∧
    jsonField (toolCallRpc 9 ("create-invoice".toList) (bodyArgsMain (Json.obj []))) kParams =
      some (Json.obj [(kName, Json.str ("create-invoice".toList)), (kArgs, Json.obj [])]) :=
  c9_missing_arguments_defaults_empty [] 9 ("create-invoice".toList) rfl

/-- C7: with both providers registered, `GET /tools?provider=all` responds
200 with `\x7b jsonrpc: "2.0", result: \x7b tools \x7d \x7d` where the
tools are the xero list then the supabase list (registration order, native
order within each), every name namespaced with its provider key — and the
`tools/list` fan-out branch of `POST /mcp` builds the same body. -/
theorem c7_fanout_concatenates_in_order (xr sr : Json) (xs ss : List Json)
    (hx : jsGetPath xr kResult kTools = some (Json.arr xs))
    (hs : jsGetPath sr kResult kTools = some (Json.arr ss)) :
    getToolsHandler (some kAll) xr sr =
      { status := 200
      , body := Json.obj [(kJsonrpc, Json.str s20), (kResult, Json.obj [(kTools,
          Json.arr (xs.map (namespacedTool kXero) ++ ss.map (namespacedTool kSupabase)))])]
      , inits := [kXero, kSupabase] } ∧
    mcpFanoutResp xr sr =
      Json.obj [(kJsonrpc, Json.str s20), (kResult, Json.obj [(kTools,
        Json.arr (xs.map (namespacedTool kXero) ++ ss.map (namespacedTool kSupabase)))])] := by
  have hx2 : respTools xr = xs := by
    unfold respTools
    rw [hx]
  have hs2 : respTools sr = ss := by
    unfold respTools
    rw [hs]
  have hprov : jsToLower (orXero (some kAll)) = kAll := rfl
  constructor
  · unfold getToolsHandler
    rw [hprov, hx2, hs2]
    simp only [eq_true (Or.inr (rfl : kAll = kAll) : kAll = kXero ∨ kAll = kAll),
      eq_true (Or.inr (rfl : kAll = kAll) : kAll = kSupabase ∨ kAll = kAll),
      eq_true (rfl : kAll = kAll), if_true]
    simp
  · unfold mcpFanoutResp
    rw [hx2, hs2]

/-- C7 witness: with one concrete tool per provider, the merged list is
`xero.list-contacts` then `supabase.list-tables`. -/
theorem c7_fanout_concatenates_in_order_witness :
    getToolsHandler (some kAll) exXeroResp exSupaResp =
      { status := 200
      , body := Json.obj [(kJsonrpc, Json.str s20), (kResult, Json.obj [(kTools,
          Json.arr ([Json.obj [(kName, Json.str ("list-contacts".toList))]].map (namespacedTool kXero) ++
            [Json.obj [(kName, Json.str ("list-tables".toList))]].map (namespacedTool kSupabase)))])]
      , inits := [kXero, kSupabase] } ∧
    mcpFanoutResp exXeroResp exSupaResp =
      Json.obj [(kJsonrpc, Json.str s20), (kResult, Json.obj [(kTools,
        Json.arr ([Json.obj [(kName, Json.str ("list-contacts".toList))]].map (namespacedTool kXero) ++
          [Json.obj [(kName, Json.str ("list-tables".toList))]].map (namespacedTool kSupabase)))])] :=
  c7_fanout_concatenates_in_order exXeroResp exSupaResp
    [Json.obj [(kName, Json.str ("list-contacts".toList))]]
    [Json.obj [(kName, Json.str ("list-tables".toList))]] rfl rfl

/-- C10: provider selection is case-insensitive at every routing point:
lower-casing the namespace prefix of a tool name leaves the
`POST /tools/:toolName` routing unchanged; lower-casing the `provider`
query value leaves `POST /tools/:toolName`, `GET /tools` and `POST /mcp`
unchanged; and lower-casing the body-level `params.provider` field leaves
the provider `POST /mcp` selects unchanged. -/
theorem c10_provider_case_insensitive (p rest raw q : List Char) (qp : Option (List Char))
    (body bodyv : Json) (v : List Char) (xr sr : Json)
    (hp : hasChar dotChar p = false) :
    postToolRoute (jsToLower p ++ dotChar :: rest) qp body =
      postToolRoute (p ++ dotChar :: rest) qp body ∧
    postToolRoute raw (some (jsToLower q)) body = postToolRoute raw (some q) body ∧
    getToolsHandler (some (jsToLower q)) xr sr = getToolsHandler (some q) xr sr ∧
    mcpRoute body (some (jsToLower q)) = mcpRoute body (some q) ∧
    mcpProviderOf (mcpRoute (setParamsField bodyv kProvider (Json.str (jsToLower v))) qp) =
      mcpProviderOf (mcpRoute (setParamsField bodyv kProvider (Json.str v)) qp) :=
  ⟨postToolRoute_prefix_lower p rest qp body hp,
   postToolRoute_query_lower raw q body,
   getToolsHandler_query_lower q xr sr,
   mcpRoute_query_lower body q,
   mcpRoute_body_provider_lower bodyv v qp⟩

/-- C10 witness: `XERO.list-contacts` routes like `xero.list-contacts`,
and `provider=SUPABASE` routes like `provider=supabase` on every route. -/
theorem c10_provider_case_insensitive_witness :
    postToolRoute (jsToLower ("XERO".toList) ++ dotChar :: ("list-contacts".toList)) none
        exBodyNoId =
      postToolRoute (("XERO".toList) ++ dotChar :: ("list-contacts".toList)) none exBodyNoId ∧
    postToolRoute ("list-tables".toList) (some (jsToLower ("SUPABASE".toList))) exBodyNoId =
      postToolRoute ("list-tables".toList) (some ("SUPABASE".toList)) exBodyNoId ∧
    getToolsHandler (some (jsToLower ("SUPABASE".toList))) exXeroResp exSupaResp =
      getToolsHandler (some ("SUPABASE".toList)) exXeroResp exSupaResp ∧
    mcpRoute exBodyNoId (some (jsToLower ("SUPABASE".toList))) =
      mcpRoute exBodyNoId (some ("SUPABASE".toList)) ∧
    mcpProviderOf (mcpRoute (setParamsField exBodyNoId kProvider
        (Json.str (jsToLower ("SUPABASE".toList)))) none) =
      mcpProviderOf (mcpRoute (setParamsField exBodyNoId kProvider
        (Json.str ("SUPABASE".toList))) none) :=
  c10_provider_case_insensitive ("XERO".toList) ("list-contacts".toList) ("list-tables".toList)
    ("SUPABASE".toList) none exBodyNoId exBodyNoId ("SUPABASE".toList) exXeroResp exSupaResp rfl
